/-
Verification of the AgroAnalytics data-cleaning and insight pipeline.

The definitions below are a shallow embedding of the Python source
(`ml_service.py`, `data_service.py`, `models.py`): pandas DataFrames become
lists of rows, floats become exact rationals (ℚ), nullable columns become
`Option` values, and database state becomes an explicit list of stored
records.  Each section names the source function it embeds.
-/
import Mathlib

/- The arithmetic on ℚ is marked irreducible in the library, which prevents
`decide` from evaluating concrete pipeline runs; restore the default
reducibility so that witnesses can be checked by evaluation. -/
set_option allowUnsafeReducibility true in
attribute [semireducible] Rat.add Rat.mul Rat.sub Rat.inv

namespace AgroAnalytics

/-! ## Quantiles (pandas `Series.quantile`, linear interpolation)

pandas computes the q-quantile of a series of n values by sorting them and
linearly interpolating at position q·(n−1).  `Series.median` is the 1/2
quantile with the same interpolation. -/

/-- pandas `Series.quantile(q)` with the default linear interpolation.
Returns 0 on an empty list (the source never consults that case: the
caller guards on emptiness or filters an empty frame, which is a no-op). -/
def quantile (l : List ℚ) (q : ℚ) : ℚ :=
  let s := List.insertionSort (· ≤ ·) l
  let n := s.length
  if n = 0 then 0
  else
    let pos : ℚ := q * ((n : ℚ) - 1)
    -- floor of pos, written with Int.fdiv so the kernel can evaluate it
    let i : ℕ := (pos.num.fdiv (pos.den : ℤ)).toNat
    let frac : ℚ := pos - (i : ℚ)
    let xi := s.getD i 0
    let xi1 := s.getD (i + 1) xi
    xi + frac * (xi1 - xi)

/-- pandas `Series.median()` (the 1/2 quantile with linear interpolation). -/
def medianQ (l : List ℚ) : ℚ := quantile l (1/2)

/-! ## `MLService._remove_outliers` (ml_service.py lines 92–107)

The frame is modelled as a list of rows; each row is the list of values of
the numeric columns, indexed 0..ncols−1 in DataFrame column order.  The
source iterates over the numeric columns in order, computing IQR bounds on
the frame *as filtered so far* and reassigning `df` after each column. -/

/-- IQR bounds (Q1 − 1.5·IQR, Q3 + 1.5·IQR) of column `j` of frame `df`. -/
def colBounds (j : ℕ) (df : List (List ℚ)) : ℚ × ℚ :=
  let colVals := df.map (fun r => r.getD j 0)
  let q1 := quantile colVals (1/4)
  let q3 := quantile colVals (3/4)
  let iqr := q3 - q1
  (q1 - 3/2 * iqr, q3 + 3/2 * iqr)

/-- One pass of the loop body of `_remove_outliers` for column `j`. -/
def stepCol (df : List (List ℚ)) (j : ℕ) : List (List ℚ) :=
  let b := colBounds j df
  df.filter (fun r => decide (b.1 ≤ r.getD j 0) && decide (r.getD j 0 ≤ b.2))

/-- `MLService._remove_outliers`: sequential per-column IQR filtering. -/
def remove_outliers (ncols : ℕ) (rows : List (List ℚ)) : List (List ℚ) :=
  (List.range ncols).foldl stepCol rows

/-! ## `MLService._validate_data` (ml_service.py lines 109–123)

Column presence (`year in df.columns` etc.) is a batch-level fact, modelled
by three flags; each row carries the values of the three checked columns. -/

/-- A row of the frame reaching `_validate_data`, restricted to the three
columns the function inspects. -/
structure VRow where
  year : ℚ
  production_tonnes : ℚ
  area_hectares : ℚ
deriving DecidableEq

/-- A frame together with which of the three checked columns are present. -/
structure VBatch where
  hasYear : Bool
  hasProd : Bool
  hasArea : Bool
  rows : List VRow

/-- `MLService._validate_data`: drop invalid years, then negative
production, then negative area — each only when the column is present. -/
def validate_data (currentYear : ℚ) (b : VBatch) : VBatch :=
  let rows := b.rows
  let rows := if b.hasYear then
      rows.filter (fun r => decide (1960 ≤ r.year) && decide (r.year ≤ currentYear))
    else rows
  let rows := if b.hasProd then rows.filter (fun r => decide (0 ≤ r.production_tonnes)) else rows
  let rows := if b.hasArea then rows.filter (fun r => decide (0 ≤ r.area_hectares)) else rows
  { b with rows := rows }

/-! ## `MLService._handle_missing_values` and `_standardize_columns`
(ml_service.py lines 50–90)

The frame is modelled column-wise: each column has a name, a dtype flag
(`numeric` mirrors `select_dtypes(include=[np.number])` versus
(`include=[object]`), and a list of cells, one per row. -/

/-- A cell of a raw frame: a number, a string, or missing (NaN/None). -/
inductive Cell where
  | num (q : ℚ)
  | str (s : String)
  | na
deriving DecidableEq

/-- A named, typed column of the raw frame. -/
structure Column where
  name : String
  numeric : Bool
  values : List Cell
deriving DecidableEq

/-- A raw frame: the columns, in DataFrame order; all value lists have one
entry per row. -/
structure Frame where
  columns : List Column

/-- The numeric cells of a column (what pandas aggregations skip NaN to). -/
def cellNums (l : List Cell) : List ℚ :=
  l.filterMap (fun c => match c with | .num q => some q | _ => none)

/-- The string cells of a column. -/
def cellStrs (l : List Cell) : List String :=
  l.filterMap (fun c => match c with | .str s => some s | _ => none)

/-- Number of occurrences of `s` in `l`. -/
def countOcc (l : List String) (s : String) : ℕ :=
  (l.filter (fun t => t == s)).length

/-- Duplicate removal keeping first occurrences (the grouping keys of a
concrete run; pandas orders group keys ascending, but no claim below
depends on the order of distinct keys). -/
def dedupFirst : List String → List String
  | [] => []
  | x :: xs => x :: (dedupFirst xs).filter (fun y => y != x)

/-- pandas `Series.mode()[0]`: a most-frequent non-missing value.  pandas
breaks ties by ascending value order; this model takes the first-occurring
most-frequent value (no claim depends on the tie-break). -/
def modeStr (l : List String) : Option String :=
  (dedupFirst l).foldl
    (fun best c =>
      match best with
      | none => some c
      | some b => if countOcc l b < countOcc l c then some c else best)
    none

/-- The loop body of `_handle_missing_values` for one column: numeric
columns get NaNs replaced by the column median, object columns by the
column mode; a column with no non-missing values is left as-is
(`fillna(NaN)` is a no-op, and the mode of an empty series is empty). -/
def fillCol (c : Column) : Column :=
  if c.numeric then
    let nums := cellNums c.values
    if nums.isEmpty then c
    else { c with values := c.values.map (fun v => match v with | .na => .num (medianQ nums) | v => v) }
  else
    match modeStr (cellStrs c.values) with
    | none => c
    | some m => { c with values := c.values.map (fun v => match v with | .na => .str m | v => v) }

/-- `MLService._handle_missing_values`. -/
def handle_missing_values (f : Frame) : Frame :=
  ⟨f.columns.map fillCol⟩

/-- The fixed renaming table of `_standardize_columns`. -/
def column_mapping : List (String × String) :=
  [("County", "county"), ("COUNTY", "county"),
   ("Crop", "crop_name"), ("CROP", "crop_name"),
   ("Production", "production_tonnes"), ("PRODUCTION", "production_tonnes"),
   ("Area", "area_hectares"), ("AREA", "area_hectares"),
   ("Year", "year"), ("YEAR", "year"),
   ("Price", "price_kes"), ("PRICE", "price_kes"),
   ("Season", "season"), ("SEASON", "season")]

/-- `MLService._standardize_columns`: rename columns through the table;
names absent from the table pass through unchanged. -/
def standardize_columns (f : Frame) : Frame :=
  ⟨f.columns.map (fun c => { c with name := (column_mapping.lookup c.name).getD c.name })⟩

/-- Row count of a frame (all columns have one value per row). -/
def nRows (f : Frame) : ℕ :=
  match f.columns with
  | [] => 0
  | c :: _ => c.values.length

/-! ## Persisted records and the insight engine
(models.py `AgriculturalData`, ml_service.py lines 125–294) -/

/-- The fields of a persisted `AgriculturalData` row that the insight
engine reads (`county` for the query filter; `crop_name`, `value`, `year`,
`data_type` for aggregation).  Nullable columns are `Option`s;
`data_type` is `nullable=False`. -/
structure CRec where
  county : Option String
  crop_name : Option String
  value : Option ℚ
  year : Option Int
  data_type : String
deriving DecidableEq

/-- Python truthiness of a nullable string (`None` and `""` are falsy). -/
def truthyStr : Option String → Bool
  | none => false
  | some s => s != ""

/-- Python truthiness of a nullable number (`None` and `0` are falsy). -/
def truthyVal : Option ℚ → Bool
  | none => false
  | some v => v != 0

/-- The guard `if record.crop_name and record.value:` of
`_analyze_crop_performance` (and of the price-frame construction in
`_analyze_market_trends`). -/
def truthyRec (r : CRec) : Bool :=
  truthyStr r.crop_name && truthyVal r.value

/-- The `data_list` built by `_analyze_crop_performance` (and the
`price_df` rows of `_analyze_market_trends`): (crop, value) pairs of the
records passing the truthiness guard, in record order. -/
def dataListOf (countyData : List CRec) : List (String × ℚ) :=
  countyData.filterMap (fun r =>
    if truthyRec r then some (r.crop_name.getD "", r.value.getD 0) else none)

/-- The distinct grouping keys of `df.groupby(crop_name)`. -/
def cropsOf (dl : List (String × ℚ)) : List String :=
  dedupFirst (dl.map Prod.fst)

/-- The `value` entries of the group of one crop, in frame order. -/
def valuesFor (dl : List (String × ℚ)) (c : String) : List ℚ :=
  (dl.filter (fun p => p.1 == c)).map Prod.snd

/-- Arithmetic mean (pandas `mean` aggregation). -/
def meanList (l : List ℚ) : ℚ := l.sum / l.length

/-- The `crop_performance` table: one (crop, mean value) row per crop.
(The source also aggregates `std`, which nothing downstream reads.) -/
def cropPerf (dl : List (String × ℚ)) : List (String × ℚ) :=
  (cropsOf dl).map (fun c => (c, meanList (valuesFor dl c)))

/-- The descending-by-mean order of `sort_values(mean, ascending=False)`. -/
def descMean (a b : String × ℚ) : Prop := b.2 ≤ a.2

instance : DecidableRel descMean :=
  fun a b => (inferInstance : Decidable (b.2 ≤ a.2))

instance : IsTotal (String × ℚ) descMean :=
  ⟨fun a b => le_total b.2 a.2⟩

instance : IsTrans (String × ℚ) descMean :=
  ⟨fun _ _ _ h1 h2 => le_trans h2 h1⟩

/-- Python `round(x, 2)`, modelled as rounding half-up to cents (Python
rounds half to even on floats; no claim depends on exact half-cent ties). -/
def round2 (q : ℚ) : ℚ := (((q * 100 + 1/2).num.fdiv ((q * 100 + 1/2).den : ℤ) : ℤ) : ℚ) / 100

/-- An entry of `crop_recommendations`.  The fallback entry carries no
`avg_value` key, hence the `Option`. -/
structure Recommendation where
  crop : String
  reason : String
  potential_yield : String
  avg_value : Option ℚ
deriving DecidableEq, Inhabited

/-- The loop body of `_analyze_crop_performance` building one
recommendation from a (crop, mean) row, given the median over the means of all crops. -/
def mkRecommendation (county : String) (med : ℚ) (p : String × ℚ) : Recommendation :=
  { crop := p.1
    reason := "High average performance in " ++ county ++ " county"
    potential_yield := if med < p.2 then "High" else "Medium"
    avg_value := some (round2 p.2) }

/-- The default recommendation returned when `data_list` is empty. -/
def maizeFallback : Recommendation :=
  { crop := "Maize"
    reason := "Staple crop suitable for most Kenyan counties"
    potential_yield := "Medium to High"
    avg_value := none }

/-- `MLService._analyze_crop_performance` (ml_service.py lines 164–216).
`userCrops` is accepted and ignored, exactly as in the source. -/
def analyze_crop_performance (countyData : List CRec) (_userCrops : List String)
    (county : String) : List Recommendation :=
  let dl := dataListOf countyData
  if dl.isEmpty then [maizeFallback]
  else
    let perf := cropPerf dl
    let med := medianQ (perf.map Prod.snd)
    ((List.insertionSort descMean perf).take 3).map (mkRecommendation county med)

/-- The `trends` dictionary of `_analyze_market_trends`; the production
and seasonal entries are initialised empty and never written. -/
structure MarketTrends where
  price_trends : List (String × ℚ × String)
  production_trends : List (String × ℚ)
  seasonal_patterns : List (String × ℚ)
deriving DecidableEq

/-- The skeleton `trends` value (also standing in for the initial empty
`market_trends` mapping of `generate_farmer_insights`). -/
def MarketTrends.empty : MarketTrends := ⟨[], [], []⟩

/-- `groupby(crop).price.last()` for one crop: the last entry of the
group of that crop in frame order (every entry is non-missing because the frame
was built from truthy values only). -/
def lastPriceFor (priceDf : List (String × ℚ)) (c : String) : ℚ :=
  (((priceDf.filter (fun p => p.1 == c)).map Prod.snd).getLast?).getD 0

/-- `MLService._analyze_market_trends` (ml_service.py lines 218–255). -/
def analyze_market_trends (countyData : List CRec) : MarketTrends :=
  let priceData := countyData.filter (fun r => r.data_type == "market_prices")
  let priceDf := dataListOf priceData
  { price_trends :=
      if priceDf.isEmpty then []
      else (cropsOf priceDf).map (fun c => (c, lastPriceFor priceDf c, "stable"))
    production_trends := []
    seasonal_patterns := [] }

/-! ## Farmer profile and productivity tips
(models.py `User`, ml_service.py lines 257–294) -/

/-- The farmer-profile fields the insight engine reads.  `primary_crops`
is stored as a JSON string in the source and modelled here already parsed
(the parse itself lies on the caught-exception path no claim exercises). -/
structure UserP where
  county : String
  farm_size : Option ℚ
  farming_experience : Option Int
  primary_crops : List String

/-- Python truthiness of the nullable integer `farming_experience`. -/
def truthyInt : Option Int → Bool
  | none => false
  | some v => v != 0

/-- The three tips for `farm_size < 5`. -/
def smallFarmTips : List String :=
  ["Consider intensive farming methods to maximize small farm productivity",
   "Explore high-value crops like vegetables and herbs for better returns",
   "Implement crop rotation to maintain soil fertility"]

/-- The three tips for `farm_size >= 5`. -/
def largeFarmTips : List String :=
  ["Consider mechanization to improve efficiency on larger farms",
   "Diversify crops to reduce risk and increase income streams",
   "Explore contract farming opportunities with agribusiness companies"]

/-- The three tips for `farming_experience < 5`. -/
def newFarmerTips : List String :=
  ["Join local farmer groups to learn from experienced farmers",
   "Attend agricultural extension services and training programs",
   "Start with proven crops before experimenting with new varieties"]

/-- The fixed `county_tips` table. -/
def county_tips : List (String × String) :=
  [("Nakuru", "Consider dairy farming alongside crop production in this favorable climate"),
   ("Kiambu", "Coffee and tea are well-suited for this highland region"),
   ("Meru", "Miraa and coffee are traditional crops with good market potential"),
   ("Machakos", "Drought-resistant crops like sorghum and millet work well here")]

/-- The farm-size tips block of `_generate_productivity_tips`, as a
standalone function (for stating the appended-in-order property). -/
def sizeTips (u : UserP) : List String :=
  if truthyVal u.farm_size && decide (u.farm_size.getD 0 < 5) then smallFarmTips
  else if truthyVal u.farm_size && decide (5 ≤ u.farm_size.getD 0) then largeFarmTips
  else []

/-- The experience tips block of `_generate_productivity_tips`. -/
def expTips (u : UserP) : List String :=
  if truthyInt u.farming_experience && decide (u.farming_experience.getD 0 < 5) then newFarmerTips
  else []

/-- The county-tip block of `_generate_productivity_tips`
(`if user.county in county_tips: tips.append(...)`). -/
def countyTipList (u : UserP) : List String :=
  match county_tips.lookup u.county with
  | some t => [t]
  | none => []

/-- `MLService._generate_productivity_tips` (ml_service.py lines 257–294),
written with the accumulate-then-truncate flow of the source. -/
def generate_productivity_tips (u : UserP) : List String :=
  let tips : List String := []
  let tips :=
    if truthyVal u.farm_size && decide (u.farm_size.getD 0 < 5) then tips ++ smallFarmTips
    else if truthyVal u.farm_size && decide (5 ≤ u.farm_size.getD 0) then tips ++ largeFarmTips
    else tips
  let tips :=
    if truthyInt u.farming_experience && decide (u.farming_experience.getD 0 < 5) then
      tips ++ newFarmerTips
    else tips
  let tips :=
    match county_tips.lookup u.county with
    | some t => tips ++ [t]
    | none => tips
  tips.take 5

/-- The `insights` dictionary returned by `generate_farmer_insights`. -/
structure Insight where
  crop_recommendations : List Recommendation
  market_trends : MarketTrends
  weather_insights : List (String × String)
  productivity_tips : List String
deriving DecidableEq

/-- `MLService.generate_farmer_insights` (ml_service.py lines 125–162):
query the store for the county of the user; only when that query is non-empty
are recommendations and market trends computed, otherwise those fields
keep their initial empty values; productivity tips are always computed. -/
def generate_farmer_insights (store : List CRec) (u : UserP) : Insight :=
  let countyData := store.filter (fun r => r.county == some u.county)
  { crop_recommendations :=
      if countyData.isEmpty then []
      else analyze_crop_performance countyData u.primary_crops u.county
    market_trends :=
      if countyData.isEmpty then MarketTrends.empty
      else analyze_market_trends countyData
    weather_insights := []
    productivity_tips := generate_productivity_tips u }

/-! ## `DataService._save_agricultural_data` (data_service.py lines 208–249)

The database table is a list of stored rows in insertion order.  Each
incoming record is looked up by the six-field key; a hit updates `value`
and `processed_data` of the first matching row, a miss appends a new row.
The session autoflushes before each query, so the fold below sees earlier
writes of the same batch, matching the default SQLAlchemy behaviour. -/

/-- A raw (already cleaned) record arriving at `_save_agricultural_data`;
`record.get(...)` on an absent field yields `None`, hence the `Option`s. -/
structure RawRec where
  county : Option String
  crop_name : Option String
  data_type : Option String
  season : Option String
  year : Option Int
  value : Option ℚ
  unit : Option String
deriving DecidableEq

/-- A persisted `AgriculturalData` row as touched by ingestion. -/
structure StoredRec where
  data_source : String
  data_type : Option String
  county : Option String
  crop_name : Option String
  season : Option String
  year : Option Int
  value : Option ℚ
  unit : Option String
  processed_data : RawRec
deriving DecidableEq

/-- The uniqueness key of a stored row. -/
def storedKey (s : StoredRec) :
    String × Option String × Option String × Option String × Option Int × Option String :=
  (s.data_source, s.county, s.crop_name, s.data_type, s.year, s.season)

/-- The key a raw record is filed under for a given source. -/
def rawKey (source : String) (r : RawRec) :
    String × Option String × Option String × Option String × Option Int × Option String :=
  (source, r.county, r.crop_name, r.data_type, r.year, r.season)

/-- The `filter_by` predicate of the existence query. -/
def matchesKey (source : String) (r : RawRec) (s : StoredRec) : Bool :=
  storedKey s == rawKey source r

/-- The row constructed on a miss. -/
def newStored (source : String) (r : RawRec) : StoredRec :=
  { data_source := source
    data_type := r.data_type
    county := r.county
    crop_name := r.crop_name
    season := r.season
    year := r.year
    value := r.value
    unit := r.unit
    processed_data := r }

/-- The in-place update applied to an existing row on a hit. -/
def updateStored (r : RawRec) (s : StoredRec) : StoredRec :=
  { s with value := r.value, processed_data := r }

/-- Apply `f` to the first element satisfying `p` (the `.first()` row). -/
def updateFirst (p : α → Bool) (f : α → α) : List α → List α
  | [] => []
  | x :: xs => if p x then f x :: xs else x :: updateFirst p f xs

/-- The loop body of `_save_agricultural_data` for one record. -/
def saveOne (source : String) (store : List StoredRec) (r : RawRec) : List StoredRec :=
  if store.any (matchesKey source r) then
    updateFirst (matchesKey source r) (updateStored r) store
  else
    store ++ [newStored source r]

/-- `DataService._save_agricultural_data`: fold the batch over the store. -/
def save_agricultural_data (records : List RawRec) (source : String)
    (store : List StoredRec) : List StoredRec :=
  records.foldl (saveOne source) store

/-- The uniqueness invariant: pairwise distinct keys. -/
def KeysDistinct (store : List StoredRec) : Prop :=
  store.Pairwise (fun a b => storedKey a ≠ storedKey b)

/-! ## `MLService.predict_crop_yield` (ml_service.py lines 332–369)

The batch carries presence flags for the two feature columns and the
target column, plus the row values.  `train_test_split(..., test_size=0.2,
random_state=42)` shuffles with a fixed NumPy seed and holds out the first
⌈n/5⌉ rows of the shuffle; the Mersenne-Twister permutation itself is the
one part not embeddable, so the shuffled order is a parameter constrained
to be a permutation of the rows.  `LinearRegression` is ordinary least
squares of production on (area, year) with an intercept, here solved by
the Cramer rule on the normal equations; on a singular design the scikit-learn
`lstsq` picks the minimum-norm solution, modelled as the zero vector (no
claim depends on the coefficient values). -/

/-- A row of the yield-prediction batch. -/
structure YRow where
  area : ℚ
  year : ℚ
  production : ℚ
deriving DecidableEq, Inhabited

/-- The yield-prediction input: column presence plus rows. -/
structure YBatch where
  hasArea : Bool
  hasYear : Bool
  hasProd : Bool
  rows : List YRow

/-- The sklearn held-out size for `test_size=0.2`: ⌈n/5⌉. -/
def n_test (n : ℕ) : ℕ := (n + 4) / 5

/-- Ordinary least squares of production on (1, area, year): intercept and
the two feature coefficients, via the normal equations. -/
def fitOLS (rows : List YRow) : ℚ × ℚ × ℚ :=
  let n : ℚ := rows.length
  let s1 := (rows.map (fun r => r.area)).sum
  let s2 := (rows.map (fun r => r.year)).sum
  let s11 := (rows.map (fun r => r.area * r.area)).sum
  let s12 := (rows.map (fun r => r.area * r.year)).sum
  let s22 := (rows.map (fun r => r.year * r.year)).sum
  let sy := (rows.map (fun r => r.production)).sum
  let s1y := (rows.map (fun r => r.area * r.production)).sum
  let s2y := (rows.map (fun r => r.year * r.production)).sum
  let det := n * (s11 * s22 - s12 * s12) - s1 * (s1 * s22 - s12 * s2)
      + s2 * (s1 * s12 - s11 * s2)
  if det = 0 then (0, 0, 0)
  else
    let d0 := sy * (s11 * s22 - s12 * s12) - s1 * (s1y * s22 - s12 * s2y)
        + s2 * (s1y * s12 - s11 * s2y)
    let d1 := n * (s1y * s22 - s12 * s2y) - sy * (s1 * s22 - s12 * s2)
        + s2 * (s1 * s2y - s1y * s2)
    let d2 := n * (s11 * s2y - s1y * s12) - s1 * (s1 * s2y - s1y * s2)
        + sy * (s1 * s12 - s11 * s2)
    (d0 / det, d1 / det, d2 / det)

/-- `model.predict` for one row. -/
def predictRow (beta : ℚ × ℚ × ℚ) (r : YRow) : ℚ :=
  beta.1 + beta.2.1 * r.area + beta.2.2 * r.year

/-- sklearn `r2_score`: 1 − SS_res/SS_tot; when SS_tot = 0 it is 1.0 if
SS_res = 0 and 0.0 otherwise. -/
def r2_score (yTrue yPred : List ℚ) : ℚ :=
  let n : ℚ := yTrue.length
  let ybar := yTrue.sum / n
  let ssres := (List.zipWith (fun t p => (t - p) * (t - p)) yTrue yPred).sum
  let sstot := (yTrue.map (fun t => (t - ybar) * (t - ybar))).sum
  if sstot = 0 then (if ssres = 0 then 1 else 0) else 1 - ssres / sstot

/-- The dictionary returned on success. -/
structure YieldResult where
  model_accuracy : ℚ
  predictions : List ℚ
  feature_importance : List (String × ℚ)
deriving DecidableEq

/-- `MLService.predict_crop_yield`.  `shuffled` is the seed-42 shuffle of
the rows (see the section comment). -/
def predict_crop_yield (b : YBatch) (shuffled : List YRow) : Option YieldResult :=
  if b.rows.isEmpty then none
  else if b.hasArea && b.hasYear then
    if b.hasProd then
      if 10 < b.rows.length then
        let nt := n_test b.rows.length
        let testRows := shuffled.take nt
        let trainRows := shuffled.drop nt
        let beta := fitOLS trainRows
        let preds := testRows.map (predictRow beta)
        some { model_accuracy := r2_score (testRows.map (fun r => r.production)) preds
               predictions := preds
               feature_importance := List.zip ["area_hectares", "year"] [beta.2.1, beta.2.2] }
      else none
    else none
  else none

/-- Modelled from the words of the claim (for comparison against the code): the
value of the most recently inserted market-price record for a crop,
with no truthiness filtering. -/
def claimMostRecentPrice (countyData : List CRec) (crop : String) : Option ℚ :=
  (((countyData.filter (fun r => r.data_type == "market_prices")).filter
      (fun r => r.crop_name == some crop)).getLast?).bind (fun r => r.value)

/-! ## Lemmas and claim theorems -/

lemma mem_of_mem_stepCol {r : List ℚ} {df : List (List ℚ)} {j : ℕ}
    (h : r ∈ stepCol df j) : r ∈ df :=
  List.mem_of_mem_filter h

lemma bounds_of_mem_stepCol {r : List ℚ} {df : List (List ℚ)} {j : ℕ}
    (h : r ∈ stepCol df j) :
    (colBounds j df).1 ≤ r.getD j 0 ∧ r.getD j 0 ≤ (colBounds j df).2 := by
  have h' := (List.mem_filter.mp h).2
  simpa [Bool.and_eq_true, decide_eq_true_eq] using h'

lemma mem_of_mem_foldl_stepCol {r : List ℚ} :
    ∀ (l : List ℕ) (s : List (List ℚ)), r ∈ l.foldl stepCol s → r ∈ s := by
  intro l
  induction l with
  | nil => intro s h; simpa using h
  | cons j t ih =>
    intro s h
    exact mem_of_mem_stepCol (ih (stepCol s j) h)

lemma remove_outliers_succ (j : ℕ) (rows : List (List ℚ)) :
    remove_outliers (j + 1) rows = stepCol (remove_outliers j rows) j := by
  simp [remove_outliers, List.range_succ]

lemma mem_remove_outliers_of_lt {r : List ℚ} {ncols j : ℕ} {rows : List (List ℚ)}
    (hj : j < ncols) (hr : r ∈ remove_outliers ncols rows) :
    r ∈ remove_outliers (j + 1) rows := by
  have hsplit : ncols = (j + 1) + (ncols - (j + 1)) := by omega
  rw [hsplit, remove_outliers, List.range_add, List.foldl_append] at hr
  exact mem_of_mem_foldl_stepCol _ _ hr

/-- A two-numeric-column batch on which the outlier filter keeps a row
whose second-column value violates the IQR bounds computed on the
*pre-filter* second column: filtering on column 0 first removes the two
column-0 extremes, which widens the column-1 quartile range from [0, 0] to
[0, 50] before column 1 is processed. -/
def c2Rows : List (List ℚ) := [[-10, 0], [10, 0], [0, 0], [1, 0], [2, 100]]

/-- C2 (counterexample): it is not the case that every surviving row lies
within the IQR bounds computed per column on the pre-filter batch — row
[2, 100] survives `remove_outliers`, yet its column-1 value 100 is outside
the pre-filter column-1 bounds [Q1 − 1.5·IQR, Q3 + 1.5·IQR] = [0, 0]. -/
theorem C2_prefilter_bounds_counterexample :
    ¬ (∀ r ∈ remove_outliers 2 c2Rows, ∀ j, j < 2 →
        (colBounds j c2Rows).1 ≤ r.getD j 0 ∧ r.getD j 0 ≤ (colBounds j c2Rows).2) := by
  decide

/-- C2 (amended): for every input batch and every numeric column, every
row remaining after the outlier filter has the value of that column within
[Q1 − 1.5·IQR, Q3 + 1.5·IQR], where Q1, Q3, IQR are computed on that
column over the batch *as filtered by the passes of the earlier numeric columns*
(so for the first column, over the pre-filter batch). -/
theorem C2_outlier_bounds_sequential (ncols : ℕ) (rows : List (List ℚ))
    (r : List ℚ) (hr : r ∈ remove_outliers ncols rows) (j : ℕ) (hj : j < ncols) :
    (colBounds j (remove_outliers j rows)).1 ≤ r.getD j 0 ∧
      r.getD j 0 ≤ (colBounds j (remove_outliers j rows)).2 := by
  have h1 : r ∈ remove_outliers (j + 1) rows := mem_remove_outliers_of_lt hj hr
  rw [remove_outliers_succ] at h1
  exact bounds_of_mem_stepCol h1

/-- Witness for C2 (amended) at a concrete input: row [0] survives the
one-column filter of [[0], [1]] and lies within the bounds of that column. -/
theorem C2_outlier_bounds_sequential_witness :
    (colBounds 0 (remove_outliers 0 [[(0 : ℚ)], [1]])).1 ≤ ([(0 : ℚ)]).getD 0 0 ∧
      ([(0 : ℚ)]).getD 0 0 ≤ (colBounds 0 (remove_outliers 0 [[(0 : ℚ)], [1]])).2 :=
  C2_outlier_bounds_sequential 1 [[(0 : ℚ)], [1]] [(0 : ℚ)] (by decide) 0 (by decide)

/-- C3: every row remaining after the validity filter satisfies
1960 ≤ year ≤ current_year when the year column is present, non-negative
production when that column is present, and non-negative area when that
column is present. -/
theorem C3_validity_filter (currentYear : ℚ) (b : VBatch) (r : VRow)
    (hr : r ∈ (validate_data currentYear b).rows) :
    (b.hasYear = true → 1960 ≤ r.year ∧ r.year ≤ currentYear) ∧
      (b.hasProd = true → 0 ≤ r.production_tonnes) ∧
      (b.hasArea = true → 0 ≤ r.area_hectares) := by
  rcases b with ⟨hy, hp, ha, rows⟩
  dsimp [validate_data] at hr
  cases hy <;> cases hp <;> cases ha <;>
    simp_all [List.mem_filter, Bool.and_eq_true, decide_eq_true_eq]

/-- Witness for C3 at a concrete input: the row (2000, 5, 5) survives the
filter with all three columns present and satisfies the bounds. -/
theorem C3_validity_filter_witness :
    (true = true → (1960 : ℚ) ≤ 2000 ∧ (2000 : ℚ) ≤ 2025) ∧
      (true = true → (0 : ℚ) ≤ 5) ∧ (true = true → (0 : ℚ) ≤ 5) :=
  C3_validity_filter 2025 ⟨true, true, true, [⟨1959, 0, 0⟩, ⟨2000, -1, 0⟩, ⟨2000, 5, 5⟩]⟩
    ⟨2000, 5, 5⟩ (by decide)

lemma fillCol_length (c : Column) : (fillCol c).values.length = c.values.length := by
  unfold fillCol
  by_cases hn : c.numeric = true <;>
    simp only [hn, if_true, if_false, Bool.false_eq_true] <;>
    (split <;> simp)

/-- C4: the record normalizer — missing-value imputation followed by
column-name standardization — never changes the number of rows. -/
theorem C4_normalizer_row_count (f : Frame) :
    nRows (standardize_columns (handle_missing_values f)) = nRows f := by
  rcases f with ⟨cols⟩
  cases cols with
  | nil => rfl
  | cons c cs =>
    simp [standardize_columns, handle_missing_values, nRows, fillCol_length]

lemma storedKey_updateStored (r : RawRec) (s : StoredRec) :
    storedKey (updateStored r s) = storedKey s := rfl

lemma matchesKey_updateStored (source : String) (q r : RawRec) (s : StoredRec) :
    matchesKey source q (updateStored r s) = matchesKey source q s := rfl

lemma length_updateFirst (p : α → Bool) (f : α → α) (l : List α) :
    (updateFirst p f l).length = l.length := by
  induction l with
  | nil => rfl
  | cons x xs ih =>
    unfold updateFirst
    split <;> simp [ih]

lemma any_updateFirst_of_key_preserving (source : String) (q r : RawRec)
    (p : StoredRec → Bool) (l : List StoredRec) :
    (updateFirst p (updateStored r) l).any (matchesKey source q) =
      l.any (matchesKey source q) := by
  induction l with
  | nil => rfl
  | cons x xs ih =>
    unfold updateFirst
    split <;> simp [matchesKey_updateStored, ih]

lemma any_saveOne_of_any (source : String) (q r : RawRec) (store : List StoredRec)
    (h : store.any (matchesKey source q) = true) :
    (saveOne source store r).any (matchesKey source q) = true := by
  unfold saveOne
  split
  · rwa [any_updateFirst_of_key_preserving]
  · simp [List.any_append, h]

lemma matchesKey_newStored (source : String) (r : RawRec) :
    matchesKey source r (newStored source r) = true := by
  simp [matchesKey, storedKey, newStored, rawKey]

lemma any_saveOne_self (source : String) (r : RawRec) (store : List StoredRec) :
    (saveOne source store r).any (matchesKey source r) = true := by
  unfold saveOne
  split
  · next h => rwa [any_updateFirst_of_key_preserving]
  · simp [List.any_append, matchesKey_newStored]

lemma length_saveOne_of_any (source : String) (r : RawRec) (store : List StoredRec)
    (h : store.any (matchesKey source r) = true) :
    (saveOne source store r).length = store.length := by
  unfold saveOne
  rw [if_pos h, length_updateFirst]

lemma any_save_of_any (source : String) (q : RawRec) (batch : List RawRec) :
    ∀ store : List StoredRec, store.any (matchesKey source q) = true →
      (save_agricultural_data batch source store).any (matchesKey source q) = true := by
  induction batch with
  | nil => intro store h; exact h
  | cons r rs ih =>
    intro store h
    exact ih (saveOne source store r) (any_saveOne_of_any source q r store h)

lemma any_save_of_mem (source : String) (q : RawRec) (batch : List RawRec) :
    ∀ store : List StoredRec, q ∈ batch →
      (save_agricultural_data batch source store).any (matchesKey source q) = true := by
  induction batch with
  | nil => intro _ h; cases h
  | cons r rs ih =>
    intro store hq
    rcases List.mem_cons.mp hq with h | h
    · subst h
      exact any_save_of_any source q rs (saveOne source store q)
        (any_saveOne_self source q store)
    · exact ih (saveOne source store r) h

lemma length_save_of_all_present (source : String) (batch : List RawRec) :
    ∀ store : List StoredRec,
      (∀ r ∈ batch, store.any (matchesKey source r) = true) →
      (save_agricultural_data batch source store).length = store.length := by
  induction batch with
  | nil => intro _ _; rfl
  | cons r rs ih =>
    intro store h
    have hr : store.any (matchesKey source r) = true := h r (List.mem_cons_self r rs)
    have hrest : ∀ q ∈ rs, (saveOne source store r).any (matchesKey source q) = true :=
      fun q hq => any_saveOne_of_any source q r store (h q (List.mem_cons_of_mem r hq))
    calc (save_agricultural_data rs source (saveOne source store r)).length
        = (saveOne source store r).length := ih (saveOne source store r) hrest
      _ = store.length := length_saveOne_of_any source r store hr

lemma mem_updateFirst (p : α → Bool) (f : α → α) (l : List α) (b : α)
    (hb : b ∈ updateFirst p f l) : b ∈ l ∨ ∃ a ∈ l, b = f a := by
  induction l with
  | nil => cases hb
  | cons x xs ih =>
    unfold updateFirst at hb
    split at hb
    · rcases List.mem_cons.mp hb with h | h
      · exact Or.inr ⟨x, List.mem_cons_self x xs, h⟩
      · exact Or.inl (List.mem_cons_of_mem x h)
    · rcases List.mem_cons.mp hb with h | h
      · exact Or.inl (h ▸ List.mem_cons_self x xs)
      · rcases ih h with h' | ⟨a, ha, hfa⟩
        · exact Or.inl (List.mem_cons_of_mem x h')
        · exact Or.inr ⟨a, List.mem_cons_of_mem x ha, hfa⟩

lemma keysDistinct_updateFirst (p : StoredRec → Bool) (r : RawRec)
    (l : List StoredRec) (h : l.Pairwise (fun a b => storedKey a ≠ storedKey b)) :
    (updateFirst p (updateStored r) l).Pairwise (fun a b => storedKey a ≠ storedKey b) := by
  induction l with
  | nil => exact List.Pairwise.nil
  | cons x xs ih =>
    rcases List.pairwise_cons.mp h with ⟨hx, hxs⟩
    unfold updateFirst
    split
    · exact List.pairwise_cons.mpr
        ⟨fun b hb => by rw [storedKey_updateStored]; exact hx b hb, hxs⟩
    · refine List.pairwise_cons.mpr ⟨fun b hb => ?_, ih hxs⟩
      rcases mem_updateFirst _ _ _ _ hb with h' | ⟨a, ha, hfa⟩
      · exact hx b h'
      · rw [hfa, storedKey_updateStored]
        exact hx a ha

lemma keysDistinct_saveOne (source : String) (r : RawRec) (store : List StoredRec)
    (h : KeysDistinct store) : KeysDistinct (saveOne source store r) := by
  unfold saveOne
  split
  · exact keysDistinct_updateFirst _ r store h
  · next hno =>
    rw [KeysDistinct, List.pairwise_append]
    refine ⟨h, List.pairwise_singleton _ _, fun a ha b hb => ?_⟩
    have hb' : b = newStored source r := by simpa using hb
    subst hb'
    have : ∀ s ∈ store, matchesKey source r s = false := by
      simpa using List.any_eq_false.mp (Bool.not_eq_true _ ▸ hno)
    have hne := this a ha
    simp only [matchesKey, beq_eq_false_iff_ne, ne_eq] at hne
    intro hcontra
    exact hne (by rw [hcontra]; rfl)

lemma keysDistinct_save (source : String) (batch : List RawRec) :
    ∀ store : List StoredRec, KeysDistinct store →
      KeysDistinct (save_agricultural_data batch source store) := by
  induction batch with
  | nil => intro _ h; exact h
  | cons r rs ih =>
    intro store h
    exact ih (saveOne source store r) (keysDistinct_saveOne source r store h)

/-- C5: ingestion is idempotent on the persisted row count — saving a
batch twice leaves exactly as many rows as saving it once (the second
pass only updates) — and a repeated save preserves the at-most-one-row-
per-key invariant. -/
theorem C5_save_idempotent (batch : List RawRec) (source : String)
    (store : List StoredRec) :
    (save_agricultural_data batch source
        (save_agricultural_data batch source store)).length =
      (save_agricultural_data batch source store).length ∧
    (KeysDistinct store →
      KeysDistinct (save_agricultural_data batch source
        (save_agricultural_data batch source store))) := by
  constructor
  · exact length_save_of_all_present source batch _
      (fun r hr => any_save_of_mem source r batch store hr)
  · intro h
    exact keysDistinct_save source batch _ (keysDistinct_save source batch store h)

/-- Witness for C5 at a concrete input: a one-record batch saved twice
into an empty store. -/
theorem C5_save_idempotent_witness :
    ((save_agricultural_data
        [⟨some "Nakuru", some "Maize", some "crop_production", some "Long_Rains",
          some 2024, some 100, some "tonnes"⟩] "KilimoSTAT"
        (save_agricultural_data
          [⟨some "Nakuru", some "Maize", some "crop_production", some "Long_Rains",
            some 2024, some 100, some "tonnes"⟩] "KilimoSTAT" [])).length =
      (save_agricultural_data
        [⟨some "Nakuru", some "Maize", some "crop_production", some "Long_Rains",
          some 2024, some 100, some "tonnes"⟩] "KilimoSTAT" []).length ∧
    (KeysDistinct [] →
      KeysDistinct (save_agricultural_data
        [⟨some "Nakuru", some "Maize", some "crop_production", some "Long_Rains",
          some 2024, some 100, some "tonnes"⟩] "KilimoSTAT"
        (save_agricultural_data
          [⟨some "Nakuru", some "Maize", some "crop_production", some "Long_Rains",
            some 2024, some 100, some "tonnes"⟩] "KilimoSTAT" [])))) :=
  C5_save_idempotent _ "KilimoSTAT" []

lemma sum_sq_zipWith_nonneg (l1 l2 : List ℚ) :
    0 ≤ (List.zipWith (fun t p => (t - p) * (t - p)) l1 l2).sum := by
  induction l1 generalizing l2 with
  | nil => simp
  | cons x xs ih =>
    cases l2 with
    | nil => simp
    | cons y ys =>
      simp only [List.zipWith_cons_cons, List.sum_cons]
      exact add_nonneg (mul_self_nonneg _) (ih ys)

lemma sum_sq_map_nonneg (l : List ℚ) (c : ℚ) :
    0 ≤ (l.map (fun t => (t - c) * (t - c))).sum := by
  induction l with
  | nil => simp
  | cons x xs ih =>
    simp only [List.map_cons, List.sum_cons]
    exact add_nonneg (mul_self_nonneg _) ih

lemma r2_score_le_one (yTrue yPred : List ℚ) : r2_score yTrue yPred ≤ 1 := by
  simp only [r2_score]
  split
  · split <;> norm_num
  · next hne =>
    have hres := sum_sq_zipWith_nonneg yTrue yPred
    have htot := sum_sq_map_nonneg yTrue (yTrue.sum / yTrue.length)
    have hpos : 0 < (yTrue.map (fun t =>
        (t - yTrue.sum / yTrue.length) * (t - yTrue.sum / yTrue.length))).sum :=
      lt_of_le_of_ne htot (Ne.symm hne)
    have : 0 ≤ (List.zipWith (fun t p => (t - p) * (t - p)) yTrue yPred).sum /
        (yTrue.map (fun t =>
          (t - yTrue.sum / yTrue.length) * (t - yTrue.sum / yTrue.length))).sum :=
      div_nonneg hres (le_of_lt hpos)
    linarith

/-- C6: the yield estimator returns `none` ("not computable", not an
exception) whenever a feature column or the target column is absent or the
batch has at most 10 rows; on a well-formed batch of more than 10 rows it
returns a result whose R² is at most 1, whose predictions are one per
held-out row (⌈n/5⌉ of them), and which carries exactly two per-feature
coefficients, labelled `area_hectares` and `year`. -/
theorem C6_yield_estimator (b : YBatch) (shuffled : List YRow)
    (hperm : shuffled.Perm b.rows) :
    ((b.hasArea = false ∨ b.hasYear = false ∨ b.hasProd = false ∨
        b.rows.length ≤ 10) → predict_crop_yield b shuffled = none) ∧
    (b.hasArea = true → b.hasYear = true → b.hasProd = true →
      10 < b.rows.length →
      ∃ res, predict_crop_yield b shuffled = some res ∧
        res.model_accuracy ≤ 1 ∧
        res.predictions.length = n_test b.rows.length ∧
        res.feature_importance.length = 2 ∧
        res.feature_importance.map Prod.fst = ["area_hectares", "year"]) := by
  constructor
  · intro h
    unfold predict_crop_yield
    by_cases hemp : b.rows.isEmpty = true
    · rw [if_pos hemp]
    · rw [if_neg hemp]
      rcases h with h | h | h | h
      · simp [h]
      · simp [h]
      · cases hA : b.hasArea <;> cases hY : b.hasYear <;> simp [h]
      · cases hA : b.hasArea <;> cases hY : b.hasYear <;> cases hP : b.hasProd <;>
          simp [Nat.not_lt.mpr h]
  · intro hA hY hP hlen
    have hnemp : b.rows.isEmpty = false := by
      cases hrows : b.rows with
      | nil => rw [hrows] at hlen; simp at hlen
      | cons x xs => rfl
    have hlistlen : shuffled.length = b.rows.length := hperm.length_eq
    have hnt : n_test b.rows.length ≤ shuffled.length := by
      rw [hlistlen]; unfold n_test; omega
    have heq : predict_crop_yield b shuffled =
        some { model_accuracy :=
                 r2_score ((shuffled.take (n_test b.rows.length)).map (fun r => r.production))
                   ((shuffled.take (n_test b.rows.length)).map
                     (predictRow (fitOLS (shuffled.drop (n_test b.rows.length)))))
               predictions := (shuffled.take (n_test b.rows.length)).map
                 (predictRow (fitOLS (shuffled.drop (n_test b.rows.length))))
               feature_importance :=
                 List.zip ["area_hectares", "year"]
                   [(fitOLS (shuffled.drop (n_test b.rows.length))).2.1,
                    (fitOLS (shuffled.drop (n_test b.rows.length))).2.2] } := by
      unfold predict_crop_yield
      rw [hnemp, hA, hY, hP]
      simp only [Bool.and_self, if_true, if_pos hlen, Bool.false_eq_true, if_false]
    refine ⟨_, heq, r2_score_le_one _ _, ?_, rfl, rfl⟩
    simp only [List.length_map, List.length_take]
    omega

/-- Witness for C6 at a concrete input: an all-columns batch of 11 rows,
shuffled by the identity permutation, yields a result with the promised
shape. -/
theorem C6_yield_estimator_witness :
    ∃ res, predict_crop_yield ⟨true, true, true, List.replicate 11 ⟨1, 2000, 3⟩⟩
        (List.replicate 11 ⟨1, 2000, 3⟩) = some res ∧
      res.model_accuracy ≤ 1 ∧
      res.predictions.length = n_test 11 ∧
      res.feature_importance.length = 2 ∧
      res.feature_importance.map Prod.fst = ["area_hectares", "year"] := by
  have h := C6_yield_estimator ⟨true, true, true, List.replicate 11 ⟨1, 2000, 3⟩⟩
    (List.replicate 11 ⟨1, 2000, 3⟩) (List.Perm.refl _)
  simpa using h.2 rfl rfl rfl (by decide)

lemma mem_dedupFirst {a : String} : ∀ {l : List String}, a ∈ dedupFirst l ↔ a ∈ l := by
  intro l
  induction l with
  | nil => simp [dedupFirst]
  | cons x xs ih =>
    simp only [dedupFirst, List.mem_cons, List.mem_filter, bne_iff_ne, ne_eq,
      decide_eq_true_eq, ih]
    constructor
    · rintro (h | ⟨h, _⟩)
      · exact Or.inl h
      · exact Or.inr h
    · rintro (h | h)
      · exact Or.inl h
      · by_cases hax : a = x
        · exact Or.inl hax
        · exact Or.inr ⟨h, by simpa using hax⟩

lemma head_max_of_sorted_descMean {perf : List (String × ℚ)} {p : String × ℚ}
    (hp : p ∈ perf) :
    p.2 ≤ (List.insertionSort descMean perf).headI.2 := by
  have hmem : p ∈ List.insertionSort descMean perf :=
    (List.perm_insertionSort descMean perf).mem_iff.mpr hp
  have hsorted : List.Sorted descMean (List.insertionSort descMean perf) :=
    List.sorted_insertionSort descMean perf
  cases hs : List.insertionSort descMean perf with
  | nil => rw [hs] at hmem; cases hmem
  | cons a t =>
    rw [hs] at hmem hsorted
    rcases List.mem_cons.mp hmem with h | h
    · rw [h]; exact le_refl _
    · exact List.rel_of_sorted_cons hsorted p h

/-- C7: on county data with at least one record passing the truthiness
guard, the recommendations are the first three entries of the crop/mean
table sorted descending by mean; the sorted table is descending, its head
attains the maximal mean, the output length is min 3 (number of crops),
and the tier of an entry is "High" exactly when the mean of its crop exceeds the
median over the means of all crops. -/
theorem C7_crop_ranking (countyData : List CRec) (userCrops : List String)
    (county : String) (h : dataListOf countyData ≠ []) :
    analyze_crop_performance countyData userCrops county =
      ((List.insertionSort descMean (cropPerf (dataListOf countyData))).take 3).map
        (mkRecommendation county
          (medianQ ((cropPerf (dataListOf countyData)).map Prod.snd))) ∧
    (List.insertionSort descMean (cropPerf (dataListOf countyData))).Pairwise
      (fun a b => b.2 ≤ a.2) ∧
    (analyze_crop_performance countyData userCrops county).length =
      min 3 (cropPerf (dataListOf countyData)).length ∧
    (∀ p ∈ cropPerf (dataListOf countyData),
      p.2 ≤ (List.insertionSort descMean (cropPerf (dataListOf countyData))).headI.2) ∧
    (∀ p ∈ cropPerf (dataListOf countyData),
      (mkRecommendation county
          (medianQ ((cropPerf (dataListOf countyData)).map Prod.snd)) p).potential_yield =
        "High" ↔
        medianQ ((cropPerf (dataListOf countyData)).map Prod.snd) < p.2) := by
  have hne : (dataListOf countyData).isEmpty = false := by
    cases hdl : dataListOf countyData with
    | nil => exact absurd hdl h
    | cons x xs => rfl
  have heq : analyze_crop_performance countyData userCrops county =
      ((List.insertionSort descMean (cropPerf (dataListOf countyData))).take 3).map
        (mkRecommendation county
          (medianQ ((cropPerf (dataListOf countyData)).map Prod.snd))) := by
    simp [analyze_crop_performance, hne]
  refine ⟨heq, List.sorted_insertionSort descMean _, ?_, ?_, ?_⟩
  · rw [heq]
    simp only [List.length_map, List.length_take]
    rw [(List.perm_insertionSort descMean (cropPerf (dataListOf countyData))).length_eq]
  · exact fun p hp => head_max_of_sorted_descMean hp
  · intro p _
    unfold mkRecommendation
    dsimp only
    split
    · next hlt => simpa using hlt
    · next hge =>
      constructor
      · intro hcontra
        exact absurd hcontra (by decide)
      · intro hlt
        exact absurd hlt hge

/-- Witness for C7 at the worked example of the spec: two Nakuru production
records, Maize 40000 and Beans 12000 — Maize comes first. -/
theorem C7_crop_ranking_witness :
    analyze_crop_performance
        [⟨some "Nakuru", some "Maize", some 40000, some 2023, "crop_production"⟩,
         ⟨some "Nakuru", some "Beans", some 12000, some 2023, "crop_production"⟩]
        [] "Nakuru" =
      ((List.insertionSort descMean (cropPerf (dataListOf
          [⟨some "Nakuru", some "Maize", some 40000, some 2023, "crop_production"⟩,
           ⟨some "Nakuru", some "Beans", some 12000, some 2023, "crop_production"⟩]))).take 3).map
        (mkRecommendation "Nakuru"
          (medianQ ((cropPerf (dataListOf
            [⟨some "Nakuru", some "Maize", some 40000, some 2023, "crop_production"⟩,
             ⟨some "Nakuru", some "Beans", some 12000, some 2023, "crop_production"⟩])).map
              Prod.snd))) ∧
    (analyze_crop_performance
        [⟨some "Nakuru", some "Maize", some 40000, some 2023, "crop_production"⟩,
         ⟨some "Nakuru", some "Beans", some 12000, some 2023, "crop_production"⟩]
        [] "Nakuru").headI.crop = "Maize" := by
  have h := C7_crop_ranking
    [⟨some "Nakuru", some "Maize", some 40000, some 2023, "crop_production"⟩,
     ⟨some "Nakuru", some "Beans", some 12000, some 2023, "crop_production"⟩]
    [] "Nakuru" (by decide)
  exact ⟨h.1, by decide⟩

lemma generate_productivity_tips_eq (u : UserP) :
    generate_productivity_tips u =
      (sizeTips u ++ expTips u ++ countyTipList u).take 5 := by
  unfold generate_productivity_tips sizeTips expTips countyTipList
  rcases hl : county_tips.lookup u.county with _ | t <;>
    split_ifs <;> simp [hl, List.append_assoc]

/-- C8: the productivity-tips list never exceeds 5 entries and is the
5-truncation of the farm-size tips, then the experience tips, then the
county tip, in that fixed order. -/
theorem C8_productivity_tips (u : UserP) :
    (generate_productivity_tips u).length ≤ 5 ∧
      generate_productivity_tips u =
        (sizeTips u ++ expTips u ++ countyTipList u).take 5 := by
  refine ⟨?_, generate_productivity_tips_eq u⟩
  rw [generate_productivity_tips_eq u]
  exact List.length_take_le 5 _

/-- C9 (counterexample): with two Maize market-price records inserted in
order (value 50 then value 0), the engine reports current_price 50, while
the most recently inserted price value for Maize is 0 — zero-valued
records are silently skipped, contradicting the claimed "most recently
inserted price value". -/
theorem C9_market_trends_counterexample :
    (analyze_market_trends
        [⟨some "Nakuru", some "Maize", some 50, some 2023, "market_prices"⟩,
         ⟨some "Nakuru", some "Maize", some 0, some 2024, "market_prices"⟩]).price_trends =
      [("Maize", 50, "stable")] ∧
    claimMostRecentPrice
        [⟨some "Nakuru", some "Maize", some 50, some 2023, "market_prices"⟩,
         ⟨some "Nakuru", some "Maize", some 0, some 2024, "market_prices"⟩] "Maize" =
      some 0 ∧
    (50 : ℚ) ≠ 0 := by
  decide

/-- C9 (amended): market-trend extraction considers only market-price
records that additionally pass the truthiness guard (non-empty crop,
non-zero non-missing value); every reported entry is for such a crop, its
current_price is the value of the last such record for that crop, and its trend
tag is the constant "stable"; conversely every such crop is reported. -/
theorem C9_market_trends_amended (countyData : List CRec) :
    (∀ e ∈ (analyze_market_trends countyData).price_trends,
        e.2.2 = "stable" ∧
        e.2.1 = lastPriceFor
          (dataListOf (countyData.filter (fun r => r.data_type == "market_prices"))) e.1 ∧
        e.1 ∈ cropsOf
          (dataListOf (countyData.filter (fun r => r.data_type == "market_prices")))) ∧
    (∀ c ∈ cropsOf
        (dataListOf (countyData.filter (fun r => r.data_type == "market_prices"))),
      (c, lastPriceFor
          (dataListOf (countyData.filter (fun r => r.data_type == "market_prices"))) c,
        "stable") ∈ (analyze_market_trends countyData).price_trends) := by
  by_cases hps :
      (dataListOf (countyData.filter (fun r => r.data_type == "market_prices"))).isEmpty = true
  · have hnil : dataListOf (countyData.filter (fun r => r.data_type == "market_prices")) = [] :=
      List.isEmpty_iff.mp hps
    constructor
    · intro e he
      simp [analyze_market_trends, hps] at he
    · intro c hc
      rw [hnil] at hc
      simp [cropsOf, dedupFirst] at hc
  · constructor
    · intro e he
      simp only [analyze_market_trends, hps, Bool.false_eq_true, if_false,
        List.mem_map] at he
      rcases he with ⟨c, hc, rfl⟩
      exact ⟨rfl, rfl, hc⟩
    · intro c hc
      simp only [analyze_market_trends, hps, Bool.false_eq_true, if_false,
        List.mem_map]
      exact ⟨c, hc, rfl⟩

/-- Witness for C9 (amended) at a concrete input: one truthy Maize price
record; the reported entry satisfies all three properties. -/
theorem C9_market_trends_amended_witness :
    ("Maize", (50 : ℚ), "stable").2.2 = "stable" ∧
      ("Maize", (50 : ℚ), "stable").2.1 = lastPriceFor
        (dataListOf (([⟨some "Nakuru", some "Maize", some 50, some 2023, "market_prices"⟩] :
          List CRec).filter (fun r => r.data_type == "market_prices")))
        ("Maize", (50 : ℚ), "stable").1 ∧
      ("Maize", (50 : ℚ), "stable").1 ∈ cropsOf
        (dataListOf (([⟨some "Nakuru", some "Maize", some 50, some 2023, "market_prices"⟩] :
          List CRec).filter (fun r => r.data_type == "market_prices"))) :=
  (C9_market_trends_amended
      [⟨some "Nakuru", some "Maize", some 50, some 2023, "market_prices"⟩]).1
    ("Maize", (50 : ℚ), "stable") (by decide)

lemma dataListOf_filter_truthy (countyData : List CRec) :
    dataListOf (countyData.filter truthyRec) = dataListOf countyData := by
  induction countyData with
  | nil => rfl
  | cons r rs ih =>
    by_cases h : truthyRec r = true
    · simp only [dataListOf, List.filter_cons, h, if_true, List.filterMap_cons] at *
      rw [ih]
    · simp only [dataListOf, List.filter_cons, h, Bool.false_eq_true, if_false,
        List.filterMap_cons] at *
      rw [ih]

lemma dataListOf_eq_nil_of_all_false {countyData : List CRec}
    (h : ∀ r ∈ countyData, truthyRec r = false) : dataListOf countyData = [] := by
  induction countyData with
  | nil => rfl
  | cons r rs ih =>
    have hr : truthyRec r = false := h r (List.mem_cons_self r rs)
    simp only [dataListOf, List.filterMap_cons, hr, Bool.false_eq_true, if_false]
    exact ih (fun q hq => h q (List.mem_cons_of_mem r hq))

/-- C10 (implicit): crop-performance aggregation ignores every record
failing the truthiness guard (zero or missing value, empty or missing crop
name) — restricting the input to guarded records does not change the
output — and when every record fails the guard the Maize fallback is
returned, so an all-zero county behaves like an empty one. -/
theorem C10_zero_values_ignored (countyData : List CRec) (userCrops : List String)
    (county : String) :
    analyze_crop_performance countyData userCrops county =
      analyze_crop_performance (countyData.filter truthyRec) userCrops county ∧
    ((∀ r ∈ countyData, truthyRec r = false) →
      analyze_crop_performance countyData userCrops county = [maizeFallback]) := by
  constructor
  · unfold analyze_crop_performance
    rw [dataListOf_filter_truthy]
  · intro h
    simp [analyze_crop_performance, dataListOf_eq_nil_of_all_false h]

/-- Witness for C10 at a concrete input: a county whose single record
carries value 0 is treated as having no data. -/
theorem C10_zero_values_ignored_witness :
    analyze_crop_performance
        [⟨some "Nakuru", some "Maize", some 0, some 2023, "crop_production"⟩]
        [] "Nakuru" = [maizeFallback] :=
  (C10_zero_values_ignored
      [⟨some "Nakuru", some "Maize", some 0, some 2023, "crop_production"⟩]
      [] "Nakuru").2 (by decide)

/-- C1 (counterexample): for a farmer in a county with no persisted rows
(the only stored row belongs to another county), `generate_farmer_insights`
returns an *empty* `crop_recommendations` list, not a single Maize
fallback entry. -/
theorem C1_empty_county_counterexample :
    (generate_farmer_insights
        [⟨some "Kiambu", some "Tea", some 5, some 2023, "crop_production"⟩]
        ⟨"Nakuru", none, none, []⟩).crop_recommendations = [] ∧
    ¬ ((generate_farmer_insights
        [⟨some "Kiambu", some "Tea", some 5, some 2023, "crop_production"⟩]
        ⟨"Nakuru", none, none, []⟩).crop_recommendations.length = 1) := by
  decide

lemma dataListOf_ne_nil_of_mem_truthy {l : List CRec} {r : CRec} (hr : r ∈ l)
    (ht : truthyRec r = true) : dataListOf l ≠ [] := by
  intro hnil
  have hmem : (r.crop_name.getD "", r.value.getD 0) ∈ dataListOf l := by
    unfold dataListOf
    exact List.mem_filterMap.mpr ⟨r, hr, by simp [ht]⟩
  rw [hnil] at hmem
  cases hmem

lemma cropPerf_ne_nil {dl : List (String × ℚ)} (h : dl ≠ []) : cropPerf dl ≠ [] := by
  cases dl with
  | nil => exact absurd rfl h
  | cons p ps =>
    have hmem : p.1 ∈ cropsOf (p :: ps) := by
      apply mem_dedupFirst.mpr
      simp
    intro hcontra
    have hnil : cropsOf (p :: ps) = [] := by
      have hc := hcontra
      unfold cropPerf at hc
      exact List.map_eq_nil_iff.mp hc
    rw [hnil] at hmem
    cases hmem

lemma analyze_ne_fallback_of_dataList_ne_nil {countyData : List CRec}
    (userCrops : List String) (county : String) (h : dataListOf countyData ≠ []) :
    analyze_crop_performance countyData userCrops county ≠ [maizeFallback] := by
  have hne : (dataListOf countyData).isEmpty = false := by
    cases hdl : dataListOf countyData with
    | nil => exact absurd hdl h
    | cons x xs => rfl
  have heq : analyze_crop_performance countyData userCrops county =
      ((List.insertionSort descMean (cropPerf (dataListOf countyData))).take 3).map
        (mkRecommendation county
          (medianQ ((cropPerf (dataListOf countyData)).map Prod.snd))) := by
    simp [analyze_crop_performance, hne]
  rw [heq]
  have hperf : cropPerf (dataListOf countyData) ≠ [] := cropPerf_ne_nil h
  cases hs : List.insertionSort descMean (cropPerf (dataListOf countyData)) with
  | nil =>
    exact absurd (List.Perm.eq_nil (hs ▸ List.perm_insertionSort descMean _).symm).symm
      (Ne.symm hperf)
  | cons p t =>
    rw [List.take_succ_cons, List.map_cons]
    intro hcontra
    have hhead : mkRecommendation county
        (medianQ ((cropPerf (dataListOf countyData)).map Prod.snd)) p = maizeFallback :=
      (List.cons.injEq _ _ _ _ ▸ hcontra).1
    have havg := congrArg Recommendation.avg_value hhead
    simp [mkRecommendation, maizeFallback] at havg

/-- C1 (amended): when the county query returns no rows the
recommendations are empty; the single Maize fallback list (tier string
"Medium to High", non-empty reason) is returned exactly when county rows
exist but none passes the truthiness guard (crop name and value both
truthy). -/
theorem C1_insights_fallback (store : List CRec) (u : UserP) :
    (store.filter (fun r => r.county == some u.county) = [] →
      (generate_farmer_insights store u).crop_recommendations = []) ∧
    ((generate_farmer_insights store u).crop_recommendations = [maizeFallback] ↔
      store.filter (fun r => r.county == some u.county) ≠ [] ∧
        ∀ r ∈ store.filter (fun r => r.county == some u.county), truthyRec r = false) ∧
    maizeFallback.crop = "Maize" ∧
    maizeFallback.potential_yield = "Medium to High" ∧
    maizeFallback.reason ≠ "" := by
  refine ⟨?_, ⟨?_, ?_⟩, rfl, rfl, by decide⟩
  · intro h
    simp [generate_farmer_insights, h]
  · intro hrec
    cases hl : store.filter (fun r => r.county == some u.county) with
    | nil =>
      have hempty : (generate_farmer_insights store u).crop_recommendations = [] := by
        simp [generate_farmer_insights, hl]
      rw [hempty] at hrec
      cases hrec
    | cons x xs =>
      refine ⟨by simp [hl], ?_⟩
      by_contra hcon
      push_neg at hcon
      obtain ⟨r, hrL, htr⟩ := hcon
      have ht : truthyRec r = true := by
        cases hb : truthyRec r with
        | false => exact absurd hb htr
        | true => rfl
      have hdl : dataListOf (x :: xs) ≠ [] := dataListOf_ne_nil_of_mem_truthy hrL ht
      have hanalyze := analyze_ne_fallback_of_dataList_ne_nil u.primary_crops u.county hdl
      have hrecs : (generate_farmer_insights store u).crop_recommendations =
          analyze_crop_performance (x :: xs) u.primary_crops u.county := by
        simp [generate_farmer_insights, hl]
      rw [hrecs] at hrec
      exact hanalyze hrec
  · rintro ⟨hne, hall⟩
    have h1 : (store.filter (fun r => r.county == some u.county)).isEmpty = false := by
      cases hl : store.filter (fun r => r.county == some u.county) with
      | nil => exact absurd hl hne
      | cons x xs => rfl
    have h2 : analyze_crop_performance
        (store.filter (fun r => r.county == some u.county)) u.primary_crops u.county =
        [maizeFallback] := by
      simp [analyze_crop_performance, dataListOf_eq_nil_of_all_false hall]
    simp [generate_farmer_insights, h1, h2]

/-- Witness for C1 (amended) at a concrete input: a Nakuru store row with
no crop name and no value triggers the single-entry Maize fallback, via
the right-to-left direction of the biconditional. -/
theorem C1_insights_fallback_witness :
    (generate_farmer_insights
        [⟨some "Nakuru", none, none, none, "crop_production"⟩]
        ⟨"Nakuru", none, none, []⟩).crop_recommendations = [maizeFallback] ∧
    maizeFallback.crop = "Maize" ∧
    maizeFallback.potential_yield = "Medium to High" ∧
    maizeFallback.reason ≠ "" := by
  have h := C1_insights_fallback
    [⟨some "Nakuru", none, none, none, "crop_production"⟩]
    ⟨"Nakuru", none, none, []⟩
  exact ⟨h.2.1.mpr ⟨by decide, by decide⟩, h.2.2.1, h.2.2.2.1, h.2.2.2.2⟩

end AgroAnalytics
